import Mathlib

/-!
Shallow embedding of the materializer pipeline of `src/materializer.js`
(`asObject`, `toInt`, `toFloat`, `materializeBatch`) together with the JS
value model needed to run it: JSON values, JS truthiness, tolerant numeric
coercion (`Number(x)`) and string conversion (`String(x)`), and a model of
`JSON.parse`.  Machine numbers appearing in payloads are JSON numbers and
are modelled as rationals; `Number(x)` may additionally produce NaN or an
infinity, modelled by the `JSNum` type.
-/

set_option maxRecDepth 4000

/-- JSON-like runtime value (jsonb payloads and the JS values derived from
them).  JSON numbers are always finite, so `num` carries a rational. -/
inductive Json where
  | null : Json
  | bool : Bool → Json
  | num : ℚ → Json
  | str : String → Json
  | arr : List Json → Json
  | obj : List (String × Json) → Json

/-- Result of JS `Number(x)`: a finite value, NaN, or a signed infinity. -/
inductive JSNum where
  | finite : ℚ → JSNum
  | nan : JSNum
  | inf : JSNum
  | negInf : JSNum
deriving DecidableEq

/-- Property lookup on a JS object: the last binding for a key wins
(matching JS semantics for duplicate keys in parsed JSON). -/
def lookupLast (kvs : List (String × Json)) (k : String) : Option Json :=
  kvs.foldl (fun acc p => if p.1 == k then some p.2 else acc) none

/-- Property access `j[k]` for a JS value: only plain objects carry named properties here;
property access on any other value yields `undefined` (`none`). -/
def getField : Json → String → Option Json
  | Json.obj kvs, k => lookupLast kvs k
  | _, _ => none

/-- JS truthiness of a value.  NaN cannot occur inside `Json.num`
(JSON numbers are finite), so a numeric value is truthy iff nonzero. -/
def jsTruthy : Json → Bool
  | Json.null => false
  | Json.bool b => b
  | Json.num q => !(q == 0)
  | Json.str s => !(s == "")
  | Json.arr _ => true
  | Json.obj _ => true

/-- Model of `x || d` where `x` may be `undefined` (`none`). -/
def jsOr (v : Option Json) (d : Json) : Json :=
  match v with
  | some j => if jsTruthy j then j else d
  | none => d

/-- Decimal digit value of a character. -/
def digitVal (c : Char) : ℕ := c.toNat - '0'.toNat

/-- Hex digit value (0-9, a-f, A-F). -/
def hexVal (c : Char) : ℕ :=
  if c.isDigit then digitVal c
  else if 'a' ≤ c && c ≤ 'f' then c.toNat - 'a'.toNat + 10
  else c.toNat - 'A'.toNat + 10

/-- Value of a big-endian digit string in the given base (digits may be
hex letters when the base asks for them). -/
def digitsVal (base : ℕ) (l : List Char) : ℕ :=
  l.foldl (fun a c => a * base + hexVal c) 0

def isHexDigit (c : Char) : Bool :=
  c.isDigit || ('a' ≤ c && c ≤ 'f') || ('A' ≤ c && c ≤ 'F')

def isOctDigit (c : Char) : Bool := '0' ≤ c && c ≤ '7'

def isBinDigit (c : Char) : Bool := c == '0' || c == '1'

/-- The rational `sign * m * 10^e`, built directly from integer data. -/
def ratOfSci (sign : ℤ) (m : ℕ) (e : ℤ) : ℚ :=
  if 0 ≤ e then Rat.divInt (sign * (m : ℤ) * ((10 ^ e.toNat : ℕ) : ℤ)) 1
  else Rat.divInt (sign * (m : ℤ)) ((10 ^ (-e).toNat : ℕ) : ℤ)

/-- Whitespace recognised by JS `Number(string)` trimming. -/
def isJsWs (c : Char) : Bool :=
  c == ' ' || c == '\t' || c == '\n' || c == '\r' ||
    c == (Char.ofNat 11) || c == (Char.ofNat 12)

/-- Trim leading and trailing whitespace from a character list. -/
def jsTrim (l : List Char) : List Char :=
  ((l.dropWhile isJsWs).reverse.dropWhile isJsWs).reverse

/-- Parse a full decimal numeric literal (`[+-]? digits [. digits] [eE [+-]? digits]`,
with digits required on at least one side of the point); `none` when the
input is not exactly such a literal. -/
def parseDecimal (l : List Char) : Option ℚ :=
  let (sign, l1) : ℤ × List Char :=
    match l with
    | '+' :: t => (1, t)
    | '-' :: t => (-1, t)
    | _ => (1, l)
  let intDs := l1.takeWhile Char.isDigit
  let l2 := l1.drop intDs.length
  let (fracDs, l3) : List Char × List Char :=
    match l2 with
    | '.' :: t => (t.takeWhile Char.isDigit, t.drop (t.takeWhile Char.isDigit).length)
    | _ => ([], l2)
  if intDs.isEmpty && fracDs.isEmpty then none
  else
    let (expOk, expVal, l4) : Bool × ℤ × List Char :=
      match l3 with
      | 'e' :: t | 'E' :: t =>
        let (esign, t1) : ℤ × List Char :=
          match t with
          | '+' :: u => (1, u)
          | '-' :: u => (-1, u)
          | _ => (1, t)
        let eDs := t1.takeWhile Char.isDigit
        if eDs.isEmpty then (false, 0, t1)
        else (true, esign * (digitsVal 10 eDs : ℤ), t1.drop eDs.length)
      | _ => (true, 0, l3)
    if !expOk || !l4.isEmpty then none
    else
      some (ratOfSci sign (digitsVal 10 (intDs ++ fracDs))
        (expVal - (fracDs.length : ℤ)))

/-- JS `Number(string)`: trim whitespace; empty → 0; `Infinity` forms;
`0x`/`0o`/`0b` radix literals; otherwise a decimal literal; anything else
is NaN. -/
def strToNumber (s : String) : JSNum :=
  let l := jsTrim s.toList
  if l.isEmpty then JSNum.finite 0
  else if l == "Infinity".toList || l == "+Infinity".toList then JSNum.inf
  else if l == "-Infinity".toList then JSNum.negInf
  else
    match l with
    | '0' :: 'x' :: t | '0' :: 'X' :: t =>
      if !t.isEmpty && t.all isHexDigit then JSNum.finite ((digitsVal 16 t : ℕ) : ℚ)
      else JSNum.nan
    | '0' :: 'o' :: t | '0' :: 'O' :: t =>
      if !t.isEmpty && t.all isOctDigit then JSNum.finite ((digitsVal 8 t : ℕ) : ℚ)
      else JSNum.nan
    | '0' :: 'b' :: t | '0' :: 'B' :: t =>
      if !t.isEmpty && t.all isBinDigit then JSNum.finite ((digitsVal 2 t : ℕ) : ℚ)
      else JSNum.nan
    | _ =>
      match parseDecimal l with
      | some q => JSNum.finite q
      | none => JSNum.nan

/-- Whitespace accepted between JSON tokens by `JSON.parse`. -/
def skipJsonWs (l : List Char) : List Char :=
  l.dropWhile (fun c => c == ' ' || c == '\t' || c == '\n' || c == '\r')

/-- Parse the remainder of a JSON string literal (after the opening quote),
accumulating characters in reverse; handles the JSON escape sequences and
rejects unescaped control characters. -/
def parseJsonStr : List Char → List Char → Option (String × List Char)
  | acc, '"' :: t => some (String.mk acc.reverse, t)
  | acc, '\\' :: e :: t =>
    match e with
    | '"' => parseJsonStr ('"' :: acc) t
    | '\\' => parseJsonStr ('\\' :: acc) t
    | '/' => parseJsonStr ('/' :: acc) t
    | 'b' => parseJsonStr (Char.ofNat 8 :: acc) t
    | 'f' => parseJsonStr (Char.ofNat 12 :: acc) t
    | 'n' => parseJsonStr ('\n' :: acc) t
    | 'r' => parseJsonStr ('\r' :: acc) t
    | 't' => parseJsonStr ('\t' :: acc) t
    | 'u' =>
      match t with
      | a :: b :: c :: d :: t2 =>
        if isHexDigit a && isHexDigit b && isHexDigit c && isHexDigit d then
          parseJsonStr (Char.ofNat (digitsVal 16 [a, b, c, d]) :: acc) t2
        else none
      | _ => none
    | _ => none
  | acc, c :: t => if c.toNat < 32 then none else parseJsonStr (c :: acc) t
  | _, [] => none

/-- Parse an optional JSON exponent part and build the numeric value
`sign * m * 10 ^ (exponent - fracLen)`. -/
def parseJsonExp (sign : ℤ) (m : ℕ) (fracLen : ℕ) (l : List Char) :
    Option (Json × List Char) :=
  match l with
  | 'e' :: t | 'E' :: t =>
    let (es, t1) : ℤ × List Char :=
      match t with
      | '+' :: u => ((1 : ℤ), u)
      | '-' :: u => (-1, u)
      | _ => (1, t)
    let eDs := t1.takeWhile Char.isDigit
    if eDs.isEmpty then none
    else
      some (Json.num (ratOfSci sign m
        (es * (digitsVal 10 eDs : ℤ) - (fracLen : ℤ))), t1.drop eDs.length)
  | _ => some (Json.num (ratOfSci sign m (-(fracLen : ℤ))), l)

/-- Parse an optional JSON fraction part (a `.` must be followed by at
least one digit) and continue with the exponent. -/
def parseJsonFracExp (sign : ℤ) (ip : ℕ) (l : List Char) :
    Option (Json × List Char) :=
  match l with
  | '.' :: t =>
    let fracDs := t.takeWhile Char.isDigit
    if fracDs.isEmpty then none
    else
      parseJsonExp sign (ip * 10 ^ fracDs.length + digitsVal 10 fracDs)
        fracDs.length (t.drop fracDs.length)
  | _ => parseJsonExp sign ip 0 l

/-- Parse a JSON number: optional minus, then `0` or a nonzero-leading
digit run, then fraction and exponent. -/
def parseJsonNum (l : List Char) : Option (Json × List Char) :=
  let (sign, l1) : ℤ × List Char :=
    match l with
    | '-' :: t => ((-1 : ℤ), t)
    | _ => (1, l)
  match l1 with
  | '0' :: t => parseJsonFracExp sign 0 t
  | c :: _ =>
    if c.isDigit then
      let ds := l1.takeWhile Char.isDigit
      parseJsonFracExp sign (digitsVal 10 ds) (l1.drop ds.length)
    else none
  | [] => none

mutual

/-- Parse one JSON value; `fuel` bounds the recursion depth and is chosen
large enough for the whole input by `jsonParse`. -/
def parseJsonV : ℕ → List Char → Option (Json × List Char)
  | 0, _ => none
  | fuel + 1, l =>
    match skipJsonWs l with
    | 'n' :: 'u' :: 'l' :: 'l' :: t => some (Json.null, t)
    | 't' :: 'r' :: 'u' :: 'e' :: t => some (Json.bool true, t)
    | 'f' :: 'a' :: 'l' :: 's' :: 'e' :: t => some (Json.bool false, t)
    | '"' :: t =>
      match parseJsonStr [] t with
      | some (s, r) => some (Json.str s, r)
      | none => none
    | '[' :: t =>
      match skipJsonWs t with
      | ']' :: r => some (Json.arr [], r)
      | t1 =>
        match parseJsonArrElems fuel t1 with
        | some (js, r) => some (Json.arr js, r)
        | none => none
    | '{' :: t =>
      match skipJsonWs t with
      | '}' :: r => some (Json.obj [], r)
      | t1 =>
        match parseJsonObjMembers fuel t1 with
        | some (ms, r) => some (Json.obj ms, r)
        | none => none
    | l1 => parseJsonNum l1

/-- Parse the comma-separated elements of a JSON array up to the closing
bracket. -/
def parseJsonArrElems : ℕ → List Char → Option (List Json × List Char)
  | 0, _ => none
  | fuel + 1, l =>
    match parseJsonV fuel l with
    | none => none
    | some (j, r) =>
      match skipJsonWs r with
      | ',' :: r2 =>
        match parseJsonArrElems fuel r2 with
        | some (js, r3) => some (j :: js, r3)
        | none => none
      | ']' :: r2 => some ([j], r2)
      | _ => none

/-- Parse the comma-separated members of a JSON object up to the closing
brace. -/
def parseJsonObjMembers : ℕ → List Char → Option (List (String × Json) × List Char)
  | 0, _ => none
  | fuel + 1, l =>
    match skipJsonWs l with
    | '"' :: t =>
      match parseJsonStr [] t with
      | none => none
      | some (k, r) =>
        match skipJsonWs r with
        | ':' :: r2 =>
          match parseJsonV fuel r2 with
          | none => none
          | some (v, r3) =>
            match skipJsonWs r3 with
            | ',' :: r4 =>
              match parseJsonObjMembers fuel r4 with
              | some (ms, r5) => some ((k, v) :: ms, r5)
              | none => none
            | '}' :: r4 => some ([(k, v)], r4)
            | _ => none
        | _ => none
    | _ => none

end

/-- Model of `JSON.parse(s)`: parse one value, require only whitespace to
remain, return `none` where `JSON.parse` would throw. -/
def jsonParse (s : String) : Option Json :=
  match parseJsonV (2 * s.length + 4) s.toList with
  | some (j, r) => if (skipJsonWs r).isEmpty then some j else none
  | none => none

/-- Model of `asObject(maybeJson)` from `src/materializer.js`: `null`/`undefined`
stays `null`, objects (including arrays) pass through, strings are
`JSON.parse`d with failures mapped to `null`, everything else is `null`. -/
def asObject : Json → Json
  | Json.null => Json.null
  | Json.obj kvs => Json.obj kvs
  | Json.arr l => Json.arr l
  | Json.str s =>
    match jsonParse s with
    | some j => j
    | none => Json.null
  | _ => Json.null

/-- JS `Number(x)` on a possibly-`undefined` value.  `ToNumber` on object
values goes through `ToPrimitive` string conversion, which is not
modelled; such values coerce to NaN here. -/
def jsToNumber (x : Option Json) : JSNum :=
  match x with
  | none => JSNum.nan
  | some Json.null => JSNum.finite 0
  | some (Json.bool b) => JSNum.finite (if b then 1 else 0)
  | some (Json.num q) => JSNum.finite q
  | some (Json.str s) => strToNumber s
  | some (Json.arr _) => JSNum.nan
  | some (Json.obj _) => JSNum.nan

/-- The guard `x === null || x === undefined || x === ""` shared by
`toInt` and `toFloat`. -/
def nullishOrEmpty : Option Json → Bool
  | none => true
  | some Json.null => true
  | some (Json.str s) => s == ""
  | _ => false

/-- Whether a `Number(x)` result is a finite value. -/
def JSNum.isFinite : JSNum → Bool
  | JSNum.finite _ => true
  | _ => false

/-- Model of `toInt(x)` from `src/materializer.js`: `null`/`undefined`/`""` map to
`null`; otherwise `Number(x)` truncated toward zero (`Math.trunc`) when
finite, else `null`. -/
def toInt (x : Option Json) : Option ℤ :=
  if nullishOrEmpty x then none
  else
    match jsToNumber x with
    | JSNum.finite q => some (Int.tdiv q.num (q.den : ℤ))
    | _ => none

/-- Model of `toFloat(x)` from `src/materializer.js`: `null`/`undefined`/`""` map
to `null`; otherwise `Number(x)` when finite, else `null`. -/
def toFloat (x : Option Json) : Option ℚ :=
  if nullishOrEmpty x then none
  else
    match jsToNumber x with
    | JSNum.finite q => some q
    | _ => none

/-- JS string conversion of a numeric value.  Integral values print as
decimal integers exactly as in JS; JS shortest-round-trip float formatting
for non-integral values is outside this model (such values never occur in
the keys this pipeline builds). -/
def ratToJsString (q : ℚ) : String :=
  if q.den == 1 then toString q.num else toString q.num ++ "/" ++ toString q.den

mutual

/-- JS `String(x)` / `.toString()` on a defined value. -/
def jsToString : Json → String
  | Json.null => "null"
  | Json.bool true => "true"
  | Json.bool false => "false"
  | Json.num q => ratToJsString q
  | Json.str s => s
  | Json.arr l => String.intercalate "," (jsArrElemStrings l)
  | Json.obj _ => "[object Object]"

/-- Element conversion of `Array.prototype.join`: `null` joins as the empty
string, every other element via `String(x)`. -/
def jsArrElemStrings : List Json → List String
  | [] => []
  | Json.null :: t => "" :: jsArrElemStrings t
  | j :: t => jsToString j :: jsArrElemStrings t

end


/-- A row of `raw_events`: id assigned by the log, received timestamp,
route tag (`path`, nullable), jsonb payload. -/
structure RawEvent where
  id : ℤ
  received_at : ℤ
  path : Option String
  payload : Json

/-- A row of `bars`, as built by the insert in `materializeBatch`:
`dedup` primary key, provenance, symbol/timeframe, nullable numeric
measurements, and the original record document. -/
structure Bar where
  dedup : String
  raw_event_id : ℤ
  received_at : ℤ
  symbol : String
  tf_sec : ℤ
  tf : Json
  t_open_ms : Option ℤ
  t_close_ms : Option ℤ
  «open» : Option ℚ
  high : Option ℚ
  low : Option ℚ
  close : Option ℚ
  volume : Option ℚ
  spot_close : Option ℚ
  oi_close : Option ℚ
  funding_rate : Option ℚ
  premium_pct : Option ℚ
  premium_idx : Option ℚ
  basis : Option ℚ
  basis_pct : Option ℚ
  long_accounts : Option ℚ
  short_accounts : Option ℚ
  liq_buy : Option ℚ
  liq_sell : Option ℚ
  payload : Json

/-- The store state the materializer reads and writes: the `raw_events`
log, the singleton `materializer_state.last_raw_event_id` checkpoint, and
the `bars` sink in insertion order. -/
structure DB where
  raw_events : List RawEvent
  last_raw_event_id : ℤ
  bars : List Bar

/-- The batch fetch of `materializeBatch`:
`select ... from raw_events where id > $1 and path = '/tv' order by id asc
limit $2`. -/
def fetchBatch (events : List RawEvent) (afterId : ℤ) (limit : ℕ) : List RawEvent :=
  ((events.filter (fun e => decide (afterId < e.id) && (e.path == some "/tv"))).insertionSort
    (fun a b => a.id ≤ b.id)).take limit

/-- Model of `asObject(records[i]) || \x7b\x7d`: the element as an object, defaulting to
an empty object when the conversion result is falsy. -/
def normElem (rj : Json) : Json :=
  let a := asObject rj
  if jsTruthy a then a else Json.obj []

/-- Negation of `(rec.row_type || "") !== "BAR"`: the discriminator check of
`materializeBatch` succeeds exactly when it yields the string `"BAR"`. -/
def isBarRecord (robj : Json) : Bool :=
  match jsOr (getField robj "row_type") (Json.str "") with
  | Json.str s => s == "BAR"
  | _ => false

/-- Model of `(rec.symbol || "").toString()`. -/
def symbolOf (robj : Json) : String :=
  jsToString (jsOr (getField robj "symbol") (Json.str ""))

/-- Model of `toInt(rec.tf_sec)`. -/
def tfSecOf (robj : Json) : Option ℤ :=
  toInt (getField robj "tf_sec")

/-- Model of the dedup key expression of `materializeBatch`: prefer a truthy
explicit `dedup`, then a truthy `uid`, else the synthesized
`rawEventId:elementIndex` key. -/
def dedupKeyOf (robj : Json) (rawId : ℤ) (i : ℕ) : String :=
  jsToString (jsOr (getField robj "dedup")
    (jsOr (getField robj "uid") (Json.str (toString rawId ++ ":" ++ toString i))))

/-- Model of `rec.tf ?? null`. -/
def tfOf (robj : Json) : Json :=
  match getField robj "tf" with
  | none => Json.null
  | some j => j

/-- One iteration of the inner record loop of `materializeBatch`: skip
non-`BAR` elements, skip malformed `BAR` elements (empty symbol or
unconvertible `tf_sec`), otherwise build the `bars` row to insert. -/
def processRecord (rawId : ℤ) (receivedAt : ℤ) (i : ℕ) (rj : Json) : Option Bar :=
  let robj := normElem rj
  if !(isBarRecord robj) then none
  else
    let symbol := symbolOf robj
    match tfSecOf robj with
    | none => none
    | some tfSec =>
      if symbol == "" then none
      else
        some
          { dedup := dedupKeyOf robj rawId i
            raw_event_id := rawId
            received_at := receivedAt
            symbol := symbol
            tf_sec := tfSec
            tf := tfOf robj
            t_open_ms := toInt (getField robj "t_open_ms")
            t_close_ms := toInt (getField robj "t_close_ms")
            «open» := toFloat (getField robj "open")
            high := toFloat (getField robj "high")
            low := toFloat (getField robj "low")
            close := toFloat (getField robj "close")
            volume := toFloat (getField robj "volume")
            spot_close := toFloat (getField robj "spot_close")
            oi_close := toFloat (getField robj "oi_close")
            funding_rate := toFloat (getField robj "funding_rate")
            premium_pct := toFloat (getField robj "premium_pct")
            premium_idx := toFloat (getField robj "premium_idx")
            basis := toFloat (getField robj "basis")
            basis_pct := toFloat (getField robj "basis_pct")
            long_accounts := toFloat (getField robj "long_accounts")
            short_accounts := toFloat (getField robj "short_accounts")
            liq_buy := toFloat (getField robj "liq_buy")
            liq_sell := toFloat (getField robj "liq_sell")
            payload := robj }

/-- The record list of a payload:
`Array.isArray(payload?.records) ? payload.records : []` applied to
`asObject(row.payload)`. -/
def recordsOf (payload : Json) : List Json :=
  match getField (asObject payload) "records" with
  | some (Json.arr l) => l
  | _ => []

/-- All `bars` rows a raw event contributes, in element order, with the
element index used for synthesized dedup keys. -/
def extractEvent (e : RawEvent) : List Bar :=
  (recordsOf e.payload).enum.filterMap (fun p => processRecord e.id e.received_at p.1 p.2)

/-- Model of `insert into bars ... on conflict (dedup) do nothing`: append the row
unless a row with the same dedup key is already present. -/
def insertIfAbsent (bars : List Bar) (b : Bar) : List Bar :=
  if bars.any (fun x => x.dedup == b.dedup) then bars else bars ++ [b]

/-- Insert a list of candidate rows in order, each one conflict-checked
against everything inserted so far. -/
def applyBars (bars : List Bar) (cands : List Bar) : List Bar :=
  cands.foldl insertIfAbsent bars

/-- One successful `materializeBatch(batchSize)` unit of work: lock and
read the checkpoint, fetch the batch, extract and insert every valid
record, advance the checkpoint to the running maximum fetched id when the
fetch was non-empty, commit.  Returns the committed store together with
the `fetched` and `inserted` counters of the returned result object. -/
def materializeBatch (db : DB) (batchSize : ℕ) : DB × ℕ × ℕ :=
  let lastId := db.last_raw_event_id
  let rows := fetchBatch db.raw_events lastId batchSize
  let fetched := rows.length
  let newLast := rows.foldl (fun acc e => if acc < e.id then e.id else acc) lastId
  let bars1 := rows.foldl (fun bs e => applyBars bs (extractEvent e)) db.bars
  let last1 := if 0 < fetched then newLast else lastId
  ({ db with bars := bars1, last_raw_event_id := last1 }, fetched,
    bars1.length - db.bars.length)

/-- One cycle of the materializer loop with an injected failure point:
`failAfter = some k` means the unit of work raises after its `k`-th
in-transaction write, so the `catch` block rolls the whole transaction
back and the snapshot taken at `begin` is republished unchanged;
`failAfter = none` means the cycle commits.  The second component is the
`ok` flag of the result object. -/
def runCycle (db : DB) (batchSize : ℕ) (failAfter : Option ℕ) : DB × Bool :=
  match failAfter with
  | none => ((materializeBatch db batchSize).1, true)
  | some _ => (db, false)

/-- A sequence of loop cycles, each with its batch size and optional
failure point. -/
def runCycles (db : DB) (ps : List (ℕ × Option ℕ)) : DB :=
  ps.foldl (fun s p => (runCycle s p.1 p.2).1) db

/-- Payloads from which the extractor can derive no record list: `null`,
booleans and numbers (not objects), strings `JSON.parse` rejects, arrays
(no `records` property), and objects whose `records` property is not an
array. -/
def badPayloadB : Json → Bool
  | Json.null => true
  | Json.bool _ => true
  | Json.num _ => true
  | Json.str s => (jsonParse s).isNone
  | Json.arr _ => true
  | Json.obj kvs =>
    match lookupLast kvs "records" with
    | some (Json.arr _) => false
    | _ => true

/-- The spec scenario's first record element, with the discriminator
field spelled `kind` exactly as the scenario writes it. -/
def scenarioRecordKind : Json := Json.obj
  [("kind", Json.str "BAR"), ("dedup", Json.str "BAR|X|15|100"),
   ("symbol", Json.str "X"), ("tf_sec", Json.num 15), ("close", Json.num (mkRat 203 2))]

/-- The spec scenario's second record element (`kind` spelling). -/
def scenarioOtherKind : Json := Json.obj [("kind", Json.str "OTHER")]

/-- The spec scenario's RawEvent id=42 (`kind` spelling), on the `/tv`
route so that the batch fetch picks it up. -/
def scenarioEventKind : RawEvent :=
  { id := 42, received_at := 0, path := some "/tv",
    payload := Json.obj [("records", Json.arr [scenarioRecordKind, scenarioOtherKind])] }

/-- Store holding only the scenario event (`kind` spelling), checkpoint 0,
empty sink. -/
def scenarioDbKind : DB :=
  { raw_events := [scenarioEventKind], last_raw_event_id := 0, bars := [] }

/-- The scenario's first record element with the discriminator field the
code actually reads, `row_type`. -/
def scenarioRecordRT : Json := Json.obj
  [("row_type", Json.str "BAR"), ("dedup", Json.str "BAR|X|15|100"),
   ("symbol", Json.str "X"), ("tf_sec", Json.num 15), ("close", Json.num (mkRat 203 2))]

/-- The scenario's second record element (`row_type` spelling). -/
def scenarioOtherRT : Json := Json.obj [("row_type", Json.str "OTHER")]

/-- The scenario RawEvent id=42 with `row_type` discriminators. -/
def scenarioEventRT : RawEvent :=
  { id := 42, received_at := 0, path := some "/tv",
    payload := Json.obj [("records", Json.arr [scenarioRecordRT, scenarioOtherRT])] }

/-- Store holding only the `row_type` scenario event, checkpoint 0, empty
sink. -/
def scenarioDbRT : DB :=
  { raw_events := [scenarioEventRT], last_raw_event_id := 0, bars := [] }

/-- Duplicate delivery of the `kind`-spelled scenario event: one committed
cycle, then the checkpoint is forced back to 0 and the same event is
fetched and processed a second time. -/
def dbAfterTwoKind : DB :=
  let d1 := (materializeBatch scenarioDbKind 300).1
  (materializeBatch { d1 with last_raw_event_id := 0 } 300).1

/-- Duplicate delivery of the `row_type`-spelled scenario event. -/
def dbAfterTwoRT : DB :=
  let d1 := (materializeBatch scenarioDbRT 300).1
  (materializeBatch { d1 with last_raw_event_id := 0 } 300).1


/-- The running-maximum fold of `materializeBatch` never goes below its
start value. -/
lemma le_foldl_idMax (l : List RawEvent) (a : ℤ) :
    a ≤ l.foldl (fun acc e => if acc < e.id then e.id else acc) a := by
  induction l generalizing a with
  | nil => exact le_refl a
  | cons e t ih =>
    refine le_trans ?_ (ih (if a < e.id then e.id else a))
    by_cases h : a < e.id
    · simp [h, le_of_lt h]
    · simp [h]

/-- Every fetched id is bounded by the running-maximum fold. -/
lemma mem_le_foldl_idMax (l : List RawEvent) (a : ℤ) (e : RawEvent) (he : e ∈ l) :
    e.id ≤ l.foldl (fun acc e => if acc < e.id then e.id else acc) a := by
  induction l generalizing a with
  | nil => cases he
  | cons x t ih =>
    rcases List.mem_cons.mp he with h | h
    · subst h
      refine le_trans ?_ (le_foldl_idMax t (if a < e.id then e.id else a))
      by_cases hx : a < e.id
      · simp [hx]
      · simp [hx, le_of_not_lt hx]
    · exact ih _ h

/-- The running-maximum fold is the start value or one of the ids. -/
lemma foldl_idMax_cases (l : List RawEvent) (a : ℤ) :
    l.foldl (fun acc e => if acc < e.id then e.id else acc) a = a ∨
      ∃ e ∈ l, l.foldl (fun acc e => if acc < e.id then e.id else acc) a = e.id := by
  induction l generalizing a with
  | nil => exact Or.inl rfl
  | cons x t ih =>
    rcases ih (if a < x.id then x.id else a) with h | ⟨e, he, h⟩
    · by_cases hx : a < x.id
      · refine Or.inr ⟨x, List.mem_cons_self x t, ?_⟩
        simpa [hx] using h
      · refine Or.inl ?_
        simpa [hx] using h
    · exact Or.inr ⟨e, List.mem_cons_of_mem x he, h⟩

/-- The committed checkpoint of one `materializeBatch` cycle, spelled out. -/
lemma materializeBatch_last (db : DB) (n : ℕ) :
    (materializeBatch db n).1.last_raw_event_id =
      if 0 < (fetchBatch db.raw_events db.last_raw_event_id n).length then
        (fetchBatch db.raw_events db.last_raw_event_id n).foldl
          (fun acc e => if acc < e.id then e.id else acc) db.last_raw_event_id
      else db.last_raw_event_id := rfl

/-- A committed cycle never lowers the checkpoint. -/
lemma last_le_materializeBatch (db : DB) (n : ℕ) :
    db.last_raw_event_id ≤ (materializeBatch db n).1.last_raw_event_id := by
  rw [materializeBatch_last]
  by_cases h : 0 < (fetchBatch db.raw_events db.last_raw_event_id n).length
  · simpa [h] using le_foldl_idMax _ _
  · simp [h]

/-- No cycle, committed or rolled back, lowers the checkpoint. -/
lemma last_le_runCycle (db : DB) (n : ℕ) (f : Option ℕ) :
    db.last_raw_event_id ≤ (runCycle db n f).1.last_raw_event_id := by
  cases f with
  | none => exact last_le_materializeBatch db n
  | some k => exact le_refl _

/-- Every fetched event's id is bounded by the committed checkpoint. -/
lemma fetched_le_materializeBatch (db : DB) (n : ℕ) (e : RawEvent)
    (he : e ∈ fetchBatch db.raw_events db.last_raw_event_id n) :
    e.id ≤ (materializeBatch db n).1.last_raw_event_id := by
  rw [materializeBatch_last]
  have hlen : 0 < (fetchBatch db.raw_events db.last_raw_event_id n).length :=
    List.length_pos.mpr (List.ne_nil_of_mem he)
  simpa [hlen] using mem_le_foldl_idMax _ db.last_raw_event_id e he

/-- A payload flagged by `badPayloadB` yields an empty record list. -/
lemma recordsOf_eq_nil_of_bad (p : Json) (hb : badPayloadB p = true) :
    recordsOf p = [] := by
  cases p with
  | null => rfl
  | bool b => rfl
  | num q => rfl
  | arr l => rfl
  | str s =>
    have hn : jsonParse s = none := by
      simpa [badPayloadB, Option.isNone_iff_eq_none] using hb
    simp [recordsOf, asObject, hn, getField]
  | obj kvs =>
    simp only [recordsOf, asObject, getField]
    cases hl : lookupLast kvs "records" with
    | none => rfl
    | some j =>
      cases j with
      | arr l =>
        exfalso
        simp only [badPayloadB, hl] at hb
        exact Bool.false_ne_true hb
      | null => rfl
      | bool b => rfl
      | num q => rfl
      | str s => rfl
      | obj kvs2 => rfl

/-- An event with a `badPayloadB` payload contributes no candidates. -/
lemma extractEvent_eq_nil_of_bad (e : RawEvent) (hb : badPayloadB e.payload = true) :
    extractEvent e = [] := by
  simp [extractEvent, recordsOf_eq_nil_of_bad e.payload hb]

/-- Claim C2: for every cycle of materializeBatch that fails at any point
after the transaction begins and before commit, the whole unit of work is
rolled back: no bars row from that cycle becomes visible, the checkpoint
row is unchanged, and the cycle reports failure. -/
theorem C2_theorem (db : DB) (n k : ℕ) :
    (runCycle db n (some k)).1.bars = db.bars ∧
      (runCycle db n (some k)).1.last_raw_event_id = db.last_raw_event_id ∧
      (runCycle db n (some k)).2 = false :=
  ⟨rfl, rfl, rfl⟩

/-- Claim C3: over every sequence of cycles (committed or rolled back) the
checkpoint never decreases, and a committed cycle sets it to the maximum
of its previous value and the highest fetched id: it dominates the
previous value and every fetched id, and is attained by one of them. -/
theorem C3_theorem (db : DB) (ps : List (ℕ × Option ℕ)) :
    db.last_raw_event_id ≤ (runCycles db ps).last_raw_event_id ∧
      ∀ n : ℕ,
        db.last_raw_event_id ≤ (materializeBatch db n).1.last_raw_event_id ∧
        (∀ e ∈ fetchBatch db.raw_events db.last_raw_event_id n,
          e.id ≤ (materializeBatch db n).1.last_raw_event_id) ∧
        ((materializeBatch db n).1.last_raw_event_id = db.last_raw_event_id ∨
          ∃ e ∈ fetchBatch db.raw_events db.last_raw_event_id n,
            (materializeBatch db n).1.last_raw_event_id = e.id) := by
  constructor
  · induction ps generalizing db with
    | nil => exact le_refl _
    | cons p t ih =>
      exact le_trans (last_le_runCycle db p.1 p.2) (ih (runCycle db p.1 p.2).1)
  · intro n
    refine ⟨last_le_materializeBatch db n, fetched_le_materializeBatch db n, ?_⟩
    rw [materializeBatch_last]
    by_cases h : 0 < (fetchBatch db.raw_events db.last_raw_event_id n).length
    · simpa [h] using foldl_idMax_cases (fetchBatch db.raw_events db.last_raw_event_id n)
        db.last_raw_event_id
    · simp [h]

/-- A small raw event for witness instantiations. -/
def evW : RawEvent := { id := 5, received_at := 0, path := some "/tv", payload := Json.null }

/-- A store holding only `evW`. -/
def dbW : DB := { raw_events := [evW], last_raw_event_id := 0, bars := [] }

/-- Witness for C3 at a concrete store: monotonicity over a failing cycle
followed by a committed one, and the fetched event's id bounding the
committed checkpoint. -/
theorem C3_witness :
    dbW.last_raw_event_id ≤ (runCycles dbW [(3, some 0), (3, none)]).last_raw_event_id ∧
      evW.id ≤ (materializeBatch dbW 3).1.last_raw_event_id :=
  ⟨(C3_theorem dbW [(3, some 0), (3, none)]).1,
    ((C3_theorem dbW []).2 3).2.1 evW (List.Mem.head _)⟩

/-- Claim C5: the batch fetch returns only events with id strictly above
the checkpoint and route tag `/tv`, in ascending id order, and no more of
them than the limit. -/
theorem C5_theorem (events : List RawEvent) (afterId : ℤ) (limit : ℕ) :
    (∀ e ∈ fetchBatch events afterId limit, afterId < e.id ∧ e.path = some "/tv") ∧
      List.Sorted (fun a b : RawEvent => a.id ≤ b.id) (fetchBatch events afterId limit) ∧
      (fetchBatch events afterId limit).length ≤ limit := by
  refine ⟨?_, ?_, ?_⟩
  · intro e he
    have h1 : e ∈ (events.filter
        (fun e => decide (afterId < e.id) && (e.path == some "/tv"))).insertionSort
        (fun a b => a.id ≤ b.id) := List.take_subset _ _ he
    have h2 : e ∈ events.filter
        (fun e => decide (afterId < e.id) && (e.path == some "/tv")) :=
      (List.mem_insertionSort _).1 h1
    have h3 := List.of_mem_filter h2
    simp only [Bool.and_eq_true, decide_eq_true_eq, beq_iff_eq] at h3
    exact h3
  · haveI : IsTotal RawEvent (fun a b => a.id ≤ b.id) := ⟨fun a b => le_total a.id b.id⟩
    haveI : IsTrans RawEvent (fun a b => a.id ≤ b.id) :=
      ⟨fun a b c h1 h2 => le_trans h1 h2⟩
    exact List.Pairwise.sublist (List.take_sublist _ _) (List.sorted_insertionSort _ _)
  · exact List.length_take_le _ _

/-- Witness for C5 at a concrete store: the fetched event passes the
filter, the result is sorted, and the limit bounds its length. -/
theorem C5_witness :
    ((0 : ℤ) < evW.id ∧ evW.path = some "/tv") ∧
      List.Sorted (fun a b : RawEvent => a.id ≤ b.id) (fetchBatch [evW] 0 3) ∧
      (fetchBatch [evW] 0 3).length ≤ 3 :=
  ⟨(C5_theorem [evW] 0 3).1 evW (List.Mem.head _),
    (C5_theorem [evW] 0 3).2.1, (C5_theorem [evW] 0 3).2.2⟩

/-- Claim C10: a fetched event whose payload is null, not an object, an
unparseable JSON string, or an object without an array-valued `records`
field contributes zero candidates and leaves the sink untouched, while a
committed cycle still advances the checkpoint past every fetched id. -/
theorem C10_theorem (e : RawEvent) (bars : List Bar) (db : DB) (n : ℕ) :
    (badPayloadB e.payload = true →
      extractEvent e = [] ∧ applyBars bars (extractEvent e) = bars) ∧
      (∀ e2 ∈ fetchBatch db.raw_events db.last_raw_event_id n,
        e2.id ≤ (materializeBatch db n).1.last_raw_event_id) := by
  constructor
  · intro hb
    have h := extractEvent_eq_nil_of_bad e hb
    exact ⟨h, by simp [h, applyBars]⟩
  · exact fetched_le_materializeBatch db n

/-- A raw event whose payload is a string `JSON.parse` rejects. -/
def badEv : RawEvent :=
  { id := 9, received_at := 0, path := some "/tv", payload := Json.str "\x7bnot json" }

/-- A store holding only `badEv`. -/
def dbBad : DB := { raw_events := [badEv], last_raw_event_id := 0, bars := [] }

/-- Witness for C10: the unparseable-payload event yields no candidates
and the committed cycle's checkpoint reaches its id. -/
theorem C10_witness :
    (extractEvent badEv = [] ∧ applyBars [] (extractEvent badEv) = []) ∧
      badEv.id ≤ (materializeBatch dbBad 3).1.last_raw_event_id :=
  ⟨(C10_theorem badEv [] dbBad 3).1 (by decide),
    (C10_theorem badEv [] dbBad 3).2 badEv (List.Mem.head _)⟩

/-- The malformed BAR element of the tolerance scenario: `row_type` is
`BAR` but the symbol is missing. -/
def malC6 : Json := Json.obj [("row_type", Json.str "BAR"), ("tf_sec", Json.num 15)]

/-- First valid BAR element of the tolerance scenario. -/
def val1C6 : Json := Json.obj
  [("row_type", Json.str "BAR"), ("dedup", Json.str "g1"),
   ("symbol", Json.str "A"), ("tf_sec", Json.num 15)]

/-- Second valid BAR element of the tolerance scenario. -/
def val2C6 : Json := Json.obj
  [("row_type", Json.str "BAR"), ("dedup", Json.str "g2"),
   ("symbol", Json.str "B"), ("tf_sec", Json.num 15)]

/-- The tolerance-scenario event: one malformed and two valid BAR
elements in a single batch. -/
def evC6 : RawEvent :=
  { id := 7, received_at := 0, path := some "/tv",
    payload := Json.obj [("records", Json.arr [malC6, val1C6, val2C6])] }

/-- Store holding only the tolerance-scenario event. -/
def dbC6 : DB := { raw_events := [evC6], last_raw_event_id := 0, bars := [] }

/-- Claim C6: a BAR element with an empty symbol or an unconvertible
timeframe is skipped, and a batch with one malformed and two valid BAR
elements yields exactly two rows while the checkpoint advances past the
whole batch. -/
theorem C6_theorem :
    (∀ (rawId receivedAt : ℤ) (i : ℕ) (rj : Json),
        isBarRecord (normElem rj) = true →
        symbolOf (normElem rj) = "" ∨ tfSecOf (normElem rj) = none →
        processRecord rawId receivedAt i rj = none) ∧
      (materializeBatch dbC6 300).1.bars.map (fun b => b.dedup) = ["g1", "g2"] ∧
      (materializeBatch dbC6 300).1.bars.length = 2 ∧
      (materializeBatch dbC6 300).1.last_raw_event_id = 7 := by
  refine ⟨?_, by decide, by decide, by decide⟩
  intro rawId receivedAt i rj hbar hmal
  rcases hmal with hs | htf2
  · cases htf : tfSecOf (normElem rj) with
    | none => simp [processRecord, hbar, htf]
    | some t => simp [processRecord, hbar, htf, hs]
  · simp [processRecord, hbar, htf2]

/-- Witness for C6: the malformed element itself is skipped. -/
theorem C6_witness : processRecord 7 0 0 malC6 = none :=
  C6_theorem.1 7 0 0 malC6 (by decide) (Or.inl (by decide))

/-- A minimal valid BAR element with no explicit identifier, so the dedup
key is synthesized from `(rawEventId, elementIndex)`. -/
def objS : Json := Json.obj
  [("row_type", Json.str "BAR"), ("symbol", Json.str "A"), ("tf_sec", Json.num 1)]

/-- An event carrying only `objS`. -/
def evS : RawEvent :=
  { id := 1, received_at := 0, path := some "/tv",
    payload := Json.obj [("records", Json.arr [objS])] }

/-- The row `objS` materializes to. -/
def barS : Bar :=
  { dedup := "1:0", raw_event_id := 1, received_at := 0, symbol := "A", tf_sec := 1,
    tf := Json.null, t_open_ms := none, t_close_ms := none, «open» := none,
    high := none, low := none, close := none, volume := none, spot_close := none,
    oi_close := none, funding_rate := none, premium_pct := none, premium_idx := none,
    basis := none, basis_pct := none, long_accounts := none, short_accounts := none,
    liq_buy := none, liq_sell := none, payload := objS }


/-- Claim C7: only elements whose `row_type` discriminator check yields
`BAR` are handled — any other element contributes nothing, every emitted
row comes from a BAR element, and a cycle over arbitrary payload kinds
still reports success. -/
theorem C7_theorem :
    (∀ (rawId receivedAt : ℤ) (i : ℕ) (rj : Json),
        isBarRecord (normElem rj) = false → processRecord rawId receivedAt i rj = none) ∧
      (∀ (e : RawEvent) (b : Bar), b ∈ extractEvent e →
        ∃ p ∈ (recordsOf e.payload).enum,
          isBarRecord (normElem p.2) = true ∧
          processRecord e.id e.received_at p.1 p.2 = some b) ∧
      (∀ (db : DB) (n : ℕ), (runCycle db n none).2 = true) := by
  refine ⟨?_, ?_, fun db n => rfl⟩
  · intro rawId receivedAt i rj h
    simp [processRecord, h]
  · intro e b hb
    simp only [extractEvent] at hb
    rcases List.mem_filterMap.mp hb with ⟨p, hp, hpb⟩
    refine ⟨p, hp, ?_, hpb⟩
    cases h : isBarRecord (normElem p.2) with
    | true => rfl
    | false =>
      exfalso
      have hnone : processRecord e.id e.received_at p.1 p.2 = none := by
        simp [processRecord, h]
      rw [hnone] at hpb
      exact Option.noConfusion hpb

/-- Witness for C7: the `OTHER`-kind scenario element is skipped, the
emitted row of the minimal event comes from its BAR element, and a
committed cycle reports success. -/
theorem C7_witness :
    processRecord 42 0 1 scenarioOtherRT = none ∧
      (∃ p ∈ (recordsOf evS.payload).enum,
        isBarRecord (normElem p.2) = true ∧
        processRecord evS.id evS.received_at p.1 p.2 = some barS) ∧
      (runCycle dbW 1 none).2 = true :=
  ⟨C7_theorem.1 42 0 1 scenarioOtherRT (by decide),
    C7_theorem.2.1 evS barS (List.Mem.head _),
    C7_theorem.2.2 dbW 1⟩

/-- Truthiness of a possibly-`undefined` value. -/
def truthyOpt : Option Json → Bool
  | some v => jsTruthy v
  | none => false

/-- Claim C8: the dedup key is the element's truthy explicit `dedup`
identifier when present, else its truthy `uid`, else synthesized
deterministically as `rawEventId:elementIndex`; every emitted row carries
exactly this key. -/
theorem C8_theorem :
    (∀ (robj : Json) (rawId : ℤ) (i : ℕ) (v : Json),
        getField robj "dedup" = some v → jsTruthy v = true →
        dedupKeyOf robj rawId i = jsToString v) ∧
      (∀ (robj : Json) (rawId : ℤ) (i : ℕ) (v : Json),
        truthyOpt (getField robj "dedup") = false →
        getField robj "uid" = some v → jsTruthy v = true →
        dedupKeyOf robj rawId i = jsToString v) ∧
      (∀ (robj : Json) (rawId : ℤ) (i : ℕ),
        truthyOpt (getField robj "dedup") = false →
        truthyOpt (getField robj "uid") = false →
        dedupKeyOf robj rawId i = toString rawId ++ ":" ++ toString i) ∧
      (∀ (rawId receivedAt : ℤ) (i : ℕ) (rj : Json) (b : Bar),
        processRecord rawId receivedAt i rj = some b →
        b.dedup = dedupKeyOf (normElem rj) rawId i) := by
  refine ⟨?_, ?_, ?_, ?_⟩
  · intro robj rawId i v hd ht
    simp [dedupKeyOf, jsOr, hd, ht]
  · intro robj rawId i v hd hu htu
    cases hgd : getField robj "dedup" with
    | none => simp [dedupKeyOf, jsOr, hgd, hu, htu]
    | some w =>
      have hw : jsTruthy w = false := by simpa [truthyOpt, hgd] using hd
      simp [dedupKeyOf, jsOr, hgd, hw, hu, htu]
  · intro robj rawId i hd hu
    cases hgd : getField robj "dedup" with
    | none =>
      cases hgu : getField robj "uid" with
      | none => simp [dedupKeyOf, jsOr, hgd, hgu, jsToString]
      | some w =>
        have hw : jsTruthy w = false := by simpa [truthyOpt, hgu] using hu
        simp [dedupKeyOf, jsOr, hgd, hgu, hw, jsToString]
    | some w =>
      have hw : jsTruthy w = false := by simpa [truthyOpt, hgd] using hd
      cases hgu : getField robj "uid" with
      | none => simp [dedupKeyOf, jsOr, hgd, hgu, hw, jsToString]
      | some w2 =>
        have hw2 : jsTruthy w2 = false := by simpa [truthyOpt, hgu] using hu
        simp [dedupKeyOf, jsOr, hgd, hgu, hw, hw2, jsToString]
  · intro rawId receivedAt i rj b hpr
    simp only [processRecord] at hpr
    split at hpr
    · exact Option.noConfusion hpr
    · split at hpr
      · exact Option.noConfusion hpr
      · split at hpr
        · exact Option.noConfusion hpr
        · have hb := Option.some.inj hpr
          subst hb
          rfl

/-- Witness for C8: an explicit truthy `dedup` wins; with no identifiers
the key is synthesized from the id and the index. -/
theorem C8_witness :
    dedupKeyOf (Json.obj [("dedup", Json.str "D")]) 1 0 = "D" ∧
      dedupKeyOf (Json.obj []) 1 0 = "1:0" :=
  ⟨C8_theorem.1 (Json.obj [("dedup", Json.str "D")]) 1 0 (Json.str "D") rfl rfl,
    (C8_theorem.2.2.1 (Json.obj []) 1 0 rfl rfl).trans (by decide)⟩

/-- Claim C9: numeric-field coercion is total: an absent, `null`, or
empty-string value and any value whose `Number` conversion is not finite
coerce to `null`, and every other value coerces to its numeric value. -/
theorem C9_theorem (x : Option Json) :
    (toFloat x = none ↔
      (x = none ∨ x = some Json.null ∨ x = some (Json.str "") ∨
        (jsToNumber x).isFinite = false)) ∧
      (∀ q : ℚ, toFloat x = some q ↔
        (jsToNumber x = JSNum.finite q ∧ nullishOrEmpty x = false)) := by
  have hchar : nullishOrEmpty x = true ↔
      (x = none ∨ x = some Json.null ∨ x = some (Json.str "")) := by
    cases x with
    | none => simp [nullishOrEmpty]
    | some j =>
      cases j with
      | null => simp [nullishOrEmpty]
      | bool b => simp [nullishOrEmpty]
      | num q => simp [nullishOrEmpty]
      | str s => simp [nullishOrEmpty]
      | arr l => simp [nullishOrEmpty]
      | obj kvs => simp [nullishOrEmpty]
  constructor
  · by_cases hn : nullishOrEmpty x = true
    · simp only [toFloat, hn, if_true, true_iff]
      rcases hchar.mp hn with h | h | h
      · exact Or.inl h
      · exact Or.inr (Or.inl h)
      · exact Or.inr (Or.inr (Or.inl h))
    · have hn2 : nullishOrEmpty x = false := by simpa using hn
      have hx : ¬(x = none ∨ x = some Json.null ∨ x = some (Json.str "")) := by
        intro h
        exact hn (hchar.mpr h)
      simp only [toFloat, hn2, if_false]
      cases hj : jsToNumber x with
      | finite q =>
        constructor
        · intro h
          exact Option.noConfusion h
        · rintro (h | h | h | hfin)
          · exact absurd (Or.inl h) hx
          · exact absurd (Or.inr (Or.inl h)) hx
          · exact absurd (Or.inr (Or.inr h)) hx
          · simp [JSNum.isFinite] at hfin
      | nan => simp [JSNum.isFinite]
      | inf => simp [JSNum.isFinite]
      | negInf => simp [JSNum.isFinite]
  · intro q
    by_cases hn : nullishOrEmpty x = true
    · simp [toFloat, hn]
    · have hn2 : nullishOrEmpty x = false := by simpa using hn
      simp only [toFloat, hn2, if_false]
      cases hj : jsToNumber x with
      | finite q2 => simp
      | nan => simp
      | inf => simp
      | negInf => simp

/-- Witness for C9: a non-numeric string coerces to `null` and a numeric
string to its value. -/
theorem C9_witness :
    toFloat (some (Json.str "abc")) = none ∧
      toFloat (some (Json.str "12.5")) = some (mkRat 25 2) :=
  ⟨(C9_theorem (some (Json.str "abc"))).1.mpr (Or.inr (Or.inr (Or.inr (by decide)))),
    ((C9_theorem (some (Json.str "12.5"))).2 (mkRat 25 2)).mpr ⟨by decide, by decide⟩⟩

/-- Counterexample to claim C1 as stated: with the scenario payload spelled
exactly as written (discriminator field `kind`), the cycle produces no
`bars` row at all — in particular not one with dedup `BAR|X|15|100` —
because the code reads the discriminator from `row_type`; the checkpoint
still becomes 42. -/
theorem C1_counterexample :
    (materializeBatch scenarioDbKind 300).1.bars.map (fun b => b.dedup) ≠
        ["BAR|X|15|100"] ∧
      (materializeBatch scenarioDbKind 300).1.bars.length = 0 ∧
      (materializeBatch scenarioDbKind 300).1.last_raw_event_id = 42 :=
  ⟨by decide, by decide, by decide⟩

/-- Claim C1 (amended): with the scenario record's discriminator carried
in the `row_type` field the code reads, one successful materializeBatch
cycle produces exactly one row, with dedup `BAR|X|15|100`, raw_event_id
42 and close 101.5, and the checkpoint becomes 42. -/
theorem C1_theorem :
    (materializeBatch scenarioDbRT 300).1.bars.map
        (fun b => (b.dedup, b.raw_event_id, b.close)) =
      [("BAR|X|15|100", (42 : ℤ), some (mkRat 203 2))] ∧
      (materializeBatch scenarioDbRT 300).1.bars.length = 1 ∧
      (materializeBatch scenarioDbRT 300).1.last_raw_event_id = 42 :=
  ⟨by decide, by decide, by decide⟩

/-- Counterexample to claim C4 as stated: processing the scenario event
spelled with `kind` twice ends with zero rows, not exactly one with dedup
`BAR|X|15|100`. -/
theorem C4_counterexample :
    dbAfterTwoKind.bars.map (fun b => b.dedup) ≠ ["BAR|X|15|100"] ∧
      dbAfterTwoKind.bars.length = 0 :=
  ⟨by decide, by decide⟩

/-- A concrete row for exercising the conflict no-op. -/
def bar0 : Bar :=
  { dedup := "d", raw_event_id := 1, received_at := 0, symbol := "S", tf_sec := 1,
    tf := Json.null, t_open_ms := none, t_close_ms := none, «open» := none,
    high := none, low := none, close := none, volume := none, spot_close := none,
    oi_close := none, funding_rate := none, premium_pct := none, premium_idx := none,
    basis := none, basis_pct := none, long_accounts := none, short_accounts := none,
    liq_buy := none, liq_sell := none, payload := Json.obj [] }

/-- Claim C4 (amended): insert-if-absent leaves any row whose dedup key is
already present untouched, so fetching and processing the `row_type`
scenario event twice still ends with exactly one row with dedup
`BAR|X|15|100`. -/
theorem C4_theorem :
    (∀ (bars : List Bar) (b : Bar),
        bars.any (fun x => x.dedup == b.dedup) = true → insertIfAbsent bars b = bars) ∧
      dbAfterTwoRT.bars.map (fun b => b.dedup) = ["BAR|X|15|100"] ∧
      dbAfterTwoRT.bars.length = 1 := by
  refine ⟨?_, by decide, by decide⟩
  intro bars b h
  simp [insertIfAbsent, h]

/-- Witness for C4: re-inserting a row whose key is present is a no-op. -/
theorem C4_witness : insertIfAbsent [bar0] bar0 = [bar0] :=
  C4_theorem.1 [bar0] bar0 rfl

/-- A valid BAR element for the skip-counting comparison. -/
def barElemC7 : Json := Json.obj
  [("row_type", Json.str "BAR"), ("dedup", Json.str "c7"),
   ("symbol", Json.str "S"), ("tf_sec", Json.num 1)]

/-- A non-BAR element of some other kind. -/
def otherElemC7 : Json := Json.obj [("row_type", Json.str "OTHER")]

/-- An event carrying the BAR element plus one skipped `OTHER` element. -/
def evC7With : RawEvent :=
  { id := 3, received_at := 0, path := some "/tv",
    payload := Json.obj [("records", Json.arr [barElemC7, otherElemC7])] }

/-- The same event without the `OTHER` element. -/
def evC7Without : RawEvent :=
  { id := 3, received_at := 0, path := some "/tv",
    payload := Json.obj [("records", Json.arr [barElemC7])] }

/-- Store holding only `evC7With`. -/
def dbC7With : DB := { raw_events := [evC7With], last_raw_event_id := 0, bars := [] }

/-- Store holding only `evC7Without`. -/
def dbC7Without : DB := { raw_events := [evC7Without], last_raw_event_id := 0, bars := [] }

/-- Counterexample to claim C7 as stated: skipped non-BAR elements are not
counted.  The cycle's whole observable outcome — the `fetched` and
`inserted` counters of the result object (the only counters
`materializeBatch` keeps), the sink contents and the checkpoint — is
identical whether or not the batch contains an extra `OTHER`-kind
element, even though that element is present and skipped (two elements,
one candidate); so no count of skipped elements exists anywhere. -/
theorem C7_counterexample :
    (materializeBatch dbC7With 300).2 = (materializeBatch dbC7Without 300).2 ∧
      (materializeBatch dbC7With 300).1.bars.map (fun b => b.dedup) =
        (materializeBatch dbC7Without 300).1.bars.map (fun b => b.dedup) ∧
      (materializeBatch dbC7With 300).1.last_raw_event_id =
        (materializeBatch dbC7Without 300).1.last_raw_event_id ∧
      (recordsOf evC7With.payload).length = 2 ∧
      (extractEvent evC7With).length = 1 :=
  ⟨by decide, by decide, by decide, by decide, by decide⟩
